import Mathlib

/-!
Verification of the ReAct agent core (hook-augmented reason/act control loop).

The development shallowly embeds the data model and control flow of the
TypeScript sources: messages and content blocks, the reasoning-step
completion synthesis, streamed-response aggregation, the acting fold over
incremental tool responses, the toolkit registry with its equipped subset,
the completion action `generate_response` with structured-output
validation, the two-tier hook dispatcher, and the bounded reply loop.
-/

namespace ReactAgent

/-! ## JSON-like values (JS `any` payloads) -/

/-- A JSON-like value, standing in for the dynamic values that flow through
tool arguments, metadata records and block payloads. -/
inductive Value where
  | str : String → Value
  | int : Int → Value
  | bool : Bool → Value
  | arr : List Value → Value
  | obj : List (String × Value) → Value

/-- JS truthiness of a value (empty string, zero and `false` are falsy;
arrays and objects are always truthy). -/
def Value.truthy : Value → Bool
  | .str s => !(s == "")
  | .int n => !(n == 0)
  | .bool b => b
  | .arr _ => true
  | .obj _ => true

/-- JS `a || d`: keep `a` when it is present and truthy, else `d`.  Used for
`kwargs[0] || {}` and `config.max_iters || 10`. -/
def jsOrElse (v : Option Value) (d : Value) : Value :=
  match v with
  | some x => if x.truthy then x else d
  | none => d

/-- Quoted JSON string (escaping of special characters elided; no claim
depends on the concrete encoding). -/
def jsonOfString (s : String) : String := "\"" ++ s ++ "\""

mutual

/-- Embeds `JSON.stringify` for values. -/
def jsonOfValue : Value → String
  | .str s => jsonOfString s
  | .int n => toString n
  | .bool b => if b then "true" else "false"
  | .arr vs => "[" ++ jsonOfValueList vs ++ "]"
  | .obj fs => "\x7b" ++ jsonOfFields fs ++ "\x7d"

/-- Comma-separated rendering of a value list. -/
def jsonOfValueList : List Value → String
  | [] => ""
  | [v] => jsonOfValue v
  | v :: w :: rest => jsonOfValue v ++ "," ++ jsonOfValueList (w :: rest)

/-- Comma-separated rendering of object fields. -/
def jsonOfFields : List (String × Value) → String
  | [] => ""
  | [(k, v)] => jsonOfString k ++ ":" ++ jsonOfValue v
  | (k, v) :: f :: rest =>
      jsonOfString k ++ ":" ++ jsonOfValue v ++ "," ++ jsonOfFields (f :: rest)

end

/-! ## Content blocks and messages (src message module) -/

/-- A content unit of a structured message: `TextBlock`, `ThinkingBlock`,
`ToolUseBlock` (id, name, named arguments) or `ToolResultBlock`
(id, name, output). -/
inductive ContentBlock where
  | text : String → ContentBlock
  | thinking : String → ContentBlock
  | toolUse : String → String → List (String × Value) → ContentBlock
  | toolResult : String → String → Value → ContentBlock

/-- The `type` discriminator string of a block. -/
def ContentBlock.btype : ContentBlock → String
  | .text _ => "text"
  | .thinking _ => "thinking"
  | .toolUse _ _ _ => "tool_use"
  | .toolResult _ _ _ => "tool_result"

/-- Embeds `JSON.stringify` of a block (used when printing non-text payloads). -/
def jsonOfBlock : ContentBlock → String
  | .text t => "\x7b\"type\":\"text\",\"text\":" ++ jsonOfString t ++ "\x7d"
  | .thinking t => "\x7b\"type\":\"thinking\",\"thinking\":" ++ jsonOfString t ++ "\x7d"
  | .toolUse i n inp =>
      "\x7b\"type\":\"tool_use\",\"id\":" ++ jsonOfString i ++ ",\"name\":" ++
        jsonOfString n ++ ",\"input\":" ++ jsonOfValue (Value.obj inp) ++ "\x7d"
  | .toolResult i n out =>
      "\x7b\"type\":\"tool_result\",\"id\":" ++ jsonOfString i ++ ",\"name\":" ++
        jsonOfString n ++ ",\"output\":" ++ jsonOfValue out ++ "\x7d"

/-- Message content: a plain string or an ordered sequence of blocks. -/
inductive MessageContent where
  | plain : String → MessageContent
  | blocks : List ContentBlock → MessageContent

/-- Message roles. -/
inductive Role where
  | system
  | user
  | assistant

/-- A message: sender name, content, role and a metadata record. -/
structure Message where
  name : String
  content : MessageContent
  role : Role
  metadata : List (String × Value) := []

/-- Blocks of the given `type` within a block list
(`getContentBlocks(type)` on structured content). -/
def getContentBlocksOfType (bs : List ContentBlock) (t : String) : List ContentBlock :=
  bs.filter (fun b => b.btype == t)

/-- Text of the text blocks, joined with newlines (`getTextContent` on
structured content). -/
def getTextContentBlocks (bs : List ContentBlock) : String :=
  String.intercalate "\n"
    ((bs.filter (fun b => b.btype == "text")).map (fun b =>
      match b with
      | .text t => t
      | _ => ""))

/-- Embeds `getTextContent` of a message. -/
def Message.getTextContent (m : Message) : String :=
  match m.content with
  | .plain s => s
  | .blocks bs => getTextContentBlocks bs

/-- A parsed tool-use request: id, action name, named arguments. -/
structure ToolUseBlock where
  id : String
  name : String
  input : List (String × Value)

/-- View a content block as a tool-use request. -/
def asToolUse : ContentBlock → Option ToolUseBlock
  | .toolUse i n inp => some ⟨i, n, inp⟩
  | _ => none

/-- The tool-use requests of a block list
(the tool_use case of getContentBlocks). -/
def getToolUses (bs : List ContentBlock) : List ToolUseBlock :=
  (getContentBlocksOfType bs "tool_use").filterMap asToolUse

/-- Whether structured content holds a tool_use block (hasContentBlocks). -/
def hasToolUseBlocks (bs : List ContentBlock) : Bool :=
  !(getContentBlocksOfType bs "tool_use").isEmpty

/-- Helper message constructors (`MessageFactory`). -/
def mkSystemMessage (content : String) : Message :=
  { name := "system", content := .plain content, role := .system }

/-- Embeds `MessageFactory.createUserMessage`. -/
def mkUserMessage (content : String) (name : String) : Message :=
  { name := name, content := .plain content, role := .user }

/-- Embeds `MessageFactory.createToolResultMessage` with a single result block. -/
def mkToolResultMessage (b : ContentBlock) : Message :=
  { name := "system", content := .blocks [b], role := .system }

/-! ## Tool responses (tool/ToolResponse.ts) -/

/-- The metadata record of a tool response, restricted to the fields the
core reads: `success` (absent = undefined), `response_msg` and `error`. -/
structure ToolResponseMeta where
  success : Option Bool := none
  response_msg : Option Message := none
  err : Option String := none

/-- An incremental tool result: content blocks, metadata and the
`is_last` flag. -/
structure ToolResponse where
  content : List ContentBlock
  metadata : ToolResponseMeta
  is_last : Bool

/-- Embeds `new ToolResponse(string, metadata, isLast)`: a string payload is
wrapped in a single text block. -/
def mkTextResponse (t : String) (metadata : ToolResponseMeta) (isLast : Bool) : ToolResponse :=
  { content := [ContentBlock.text t], metadata := metadata, is_last := isLast }

/-- Embeds `createErrorResponse`: a single terminal response with a textual error
payload and `success = false`. -/
def createErrorResponse (e : String) : ToolResponse :=
  mkTextResponse ("错误: " ++ e)
    { success := some false, response_msg := none, err := some e } true

/-- Embeds `createSuccessResponse`. -/
def createSuccessResponse (t : String) : ToolResponse :=
  mkTextResponse t { success := some true, response_msg := none, err := none } true

/-- The normalized shape of a tool invocation: the incremental results the
async generator yields, and — when the generator throws after them — the
string form of the thrown value. -/
structure ToolStream where
  chunks : List ToolResponse
  thrown : Option String := none

/-- JS string interpolation of a thrown `Error` value. -/
def errToString (e : String) : String := "Error: " ++ e

/-! ## The acting step (ReActAgent.acting) -/

/-- The text rendering of one chunk of content: each block contributes its
`text` when present (and non-empty, per JS `||`), else its JSON rendering;
blocks are joined with newlines. -/
def chunkText (bs : List ContentBlock) : String :=
  String.intercalate "\n" (bs.map (fun b =>
    match b with
    | .text t => if t == "" then jsonOfBlock b else t
    | _ => jsonOfBlock b))

/-- Observable events of one acting step: a chunk being folded in, and the
tool-result message being appended to the conversation log. -/
inductive ActEv where
  | chunkEv : ToolResponse → ActEv
  | memAdd : Message → ActEv

/-- Outcome of one acting step: the tool-result message, the adopted final
reply (only a successful completion action supplies one), and the event
trace. -/
structure ActingOutcome where
  toolResultMsg : Message
  responseMsg : Option Message
  trace : List ActEv

/-- One fold step of the acting loop: the output of the tool result is
overwritten with the text of the current chunk, and the response message is
adopted from a successful completion-action chunk. -/
def actingStep (agentFinishName : String) (tc : ToolUseBlock)
    (acc : Value × Option Message) (ch : ToolResponse) : Value × Option Message :=
  let out := Value.str (chunkText ch.content)
  let resp :=
    if tc.name == agentFinishName && ch.metadata.success == some true then
      ch.metadata.response_msg
    else acc.2
  (out, resp)

/-- Embeds `ReActAgent.acting`: drain the incremental results of the tool, folding them
into a single tool-result block whose initial output is the empty array; on
a thrown error the output becomes a textual failure; finally the
tool-result message is appended to the log exactly once. -/
def acting (agentFinishName : String) (tc : ToolUseBlock) (stream : ToolStream) :
    ActingOutcome :=
  let folded := stream.chunks.foldl (actingStep agentFinishName tc) (Value.arr [], none)
  let out :=
    match stream.thrown with
    | some e => Value.str ("工具调用失败: " ++ errToString e)
    | none => folded.1
  let msg := mkToolResultMessage (ContentBlock.toolResult tc.id tc.name out)
  { toolResultMsg := msg
    responseMsg := folded.2
    trace := stream.chunks.map ActEv.chunkEv ++ [ActEv.memAdd msg] }

/-- The output stored in a tool-result message holding one result block. -/
def toolResultOutput (m : Message) : Option Value :=
  match m.content with
  | .blocks [ContentBlock.toolResult _ _ out] => some out
  | _ => none

/-! ## Reasoning-step content (ReActAgent.reasoning) -/

/-- Name of the reserved completion action. -/
def finishFunctionName : String := "generate_response"

/-- Streamed-response aggregation in `reasoning`: the content of every chunk is
appended to the accumulated content
(`accumulatedContent = [...accumulatedContent, ...chunk.content]`). -/
def aggregateReasoningStream (chunks : List (List ContentBlock)) : List ContentBlock :=
  chunks.foldl (fun acc c => acc ++ c) []

/-- Completion synthesis at the end of `reasoning`: when the assistant
output holds no tool-use block, the content is replaced with a single
synthesized call of the completion action whose sole argument is the text of the
message. -/
def synthesizeCompletion (bs : List ContentBlock) (uuid : String) : List ContentBlock :=
  if hasToolUseBlocks bs then bs
  else
    [ContentBlock.toolUse uuid finishFunctionName
      [("response", Value.str (getTextContentBlocks bs))]]

/-! ## Structured output and the completion action
(ReActAgent.generateResponse) -/

/-- A structured-output contract: parsing either yields the structured data
(stored into the metadata of the reply) or fails with a message. -/
structure StructuredModel where
  parse : Value → Except String (List (String × Value))

/-- Embeds `ReActAgent.generateResponse`: build the reply message from the
`response` argument; under a structured-output contract, validate
`kwargs[0] || {}` first — a failure yields a single terminal failed
response (no reply message), a success yields a single terminal successful
response carrying the reply. -/
def generateResponse (agentName : String) (requiredStructuredModel : Option StructuredModel)
    (response : String) (kwargs : List Value) : ToolStream :=
  let responseMsg : Message := { name := agentName, content := .plain response, role := .assistant }
  match requiredStructuredModel with
  | some sm =>
    match sm.parse (jsOrElse kwargs.head? (Value.obj [])) with
    | .error e =>
        { chunks := [mkTextResponse ("参数验证错误: " ++ errToString e)
            { success := some false, response_msg := none, err := none } true] }
    | .ok structuredData =>
        { chunks := [mkTextResponse "成功生成回复。"
            { success := some true
              response_msg := some { responseMsg with metadata := structuredData }
              err := none } true] }
  | none =>
      { chunks := [mkTextResponse "成功生成回复。"
          { success := some true, response_msg := some responseMsg, err := none } true] }

/-! ## Toolkit (tool/Toolkit.ts) -/

/-- A parameter schema: the ordered `properties` entries (name and schema
body, the body itself uninterpreted) and the `required` names. -/
structure ToolParamSchema where
  properties : List (String × Value)
  required : List String

/-- A tool implementation: positional arguments (a missing optional
argument is passed as `none`, JS `undefined`) to a normalized incremental
result stream. -/
def ToolFunction : Type := List (Option Value) → ToolStream

/-- Registry entry of a tool. -/
structure ToolFunctionMetadata where
  name : String
  func : ToolFunction
  description : String
  parameters : ToolParamSchema
  extendedModel : Option StructuredModel := none

/-- Insertion-ordered association-list lookup (JS `Map.get`). -/
def alistLookup {α : Type} (m : List (String × α)) (k : String) : Option α :=
  (m.find? (fun p => p.1 == k)).map Prod.snd

/-- Insertion-ordered association-list insertion (JS `Map.set`): an existing
key keeps its position and gets the new value; a new key is appended. -/
def alistInsert {α : Type} (m : List (String × α)) (k : String) (v : α) :
    List (String × α) :=
  if m.any (fun p => p.1 == k) then
    m.map (fun p => if p.1 == k then (k, v) else p)
  else m ++ [(k, v)]

/-- Association-list deletion (JS `Map.delete`). -/
def alistErase {α : Type} (m : List (String × α)) (k : String) : List (String × α) :=
  m.filter (fun p => !(p.1 == k))

/-- Insertion-ordered set insertion (JS `Set.add`). -/
def setAdd (s : List String) (k : String) : List String :=
  if s.contains k then s else s ++ [k]

/-- The toolkit: the full registry and the equipped subset. -/
structure Toolkit where
  tools : List (String × ToolFunctionMetadata) := []
  equippedTools : List String := []

/-- Embeds `Toolkit.hasToolFunction`. -/
def Toolkit.hasToolFunction (tk : Toolkit) (name : String) : Bool :=
  tk.tools.any (fun p => p.1 == name)

/-- Embeds `Toolkit.registerToolWithMetadata`: store the entry and equip the
name. -/
def Toolkit.registerToolWithMetadata (tk : Toolkit) (func : ToolFunction)
    (name description : String) (parameters : ToolParamSchema) : Toolkit :=
  { tools := alistInsert tk.tools name
      { name := name, func := func, description := description, parameters := parameters }
    equippedTools := setAdd tk.equippedTools name }

/-- Embeds `Toolkit.registerToolFunction`: extract metadata from the function
(the JS source inspection is abstracted as the `extracted` entry) and then
store it and equip the name, exactly as the metadata variant does. -/
def Toolkit.registerToolFunction (tk : Toolkit) (functionName : String)
    (extracted : ToolFunctionMetadata) : Toolkit :=
  { tools := alistInsert tk.tools functionName { extracted with name := functionName }
    equippedTools := setAdd tk.equippedTools functionName }

/-- Embeds `Toolkit.resetEquippedTools`: the given names are checked against
the registry first, and an unknown name makes the call throw (the second
component carries the thrown message) before anything is mutated; otherwise
the equipped set is cleared and rebuilt from the given names.  The first
component is the post-call toolkit state. -/
def Toolkit.resetEquippedTools (tk : Toolkit) (toolNames : List String) :
    Toolkit × Option String :=
  let invalidTools := toolNames.filter (fun n => !(tk.tools.any (fun p => p.1 == n)))
  if invalidTools.isEmpty then
    ({ tk with equippedTools := toolNames.foldl setAdd [] }, none)
  else
    (tk, some ("以下工具不存在: " ++ String.intercalate ", " invalidTools))

/-- Embeds `Toolkit.removeToolFunction`: drop the name from the registry and the
equipped set; report whether it was present. -/
def Toolkit.removeToolFunction (tk : Toolkit) (name : String) : Toolkit × Bool :=
  if tk.tools.any (fun p => p.1 == name) then
    ({ tools := alistErase tk.tools name
       equippedTools := tk.equippedTools.filter (fun n => !(n == name)) }, true)
  else (tk, false)

/-- Embeds `Toolkit.clear`: empty both the registry and the equipped set. -/
def Toolkit.clearAll (_tk : Toolkit) : Toolkit :=
  { tools := [], equippedTools := [] }

/-- The equipped-subset invariant: every equipped name is registered. -/
def Toolkit.equippedSubsetRegistered (tk : Toolkit) : Prop :=
  ∀ n ∈ tk.equippedTools, (alistLookup tk.tools n).isSome = true

/-- Embeds `Toolkit.validateInput`: the first required parameter missing from the
named arguments makes the call throw. -/
def validateInput (input : List (String × Value)) (schema : ToolParamSchema) :
    Except String (List (String × Value)) :=
  match schema.required.find? (fun r => !(input.any (fun p => p.1 == r))) with
  | some r => Except.error ("缺少必需参数: " ++ r)
  | none => Except.ok input

/-- Positional-argument construction of `callToolFunctionWithArgs`: walk the
property names of the schema in order; a present argument is passed through, a
missing required one throws, a missing optional one becomes `undefined`. -/
def positionalArgs (paramNames : List String) (input : List (String × Value))
    (required : List String) : Except String (List (Option Value)) :=
  match paramNames with
  | [] => Except.ok []
  | p :: rest =>
    if input.any (fun q => q.1 == p) then do
      let restArgs ← positionalArgs rest input required
      Except.ok (alistLookup input p :: restArgs)
    else if required.contains p then
      Except.error ("缺少必需参数: " ++ p)
    else do
      let restArgs ← positionalArgs rest input required
      Except.ok (none :: restArgs)

/-- Embeds `Toolkit.callToolFunctionWithArgs`: convert named arguments to
positional ones by the property order of the schema and run the tool. -/
def callToolFunctionWithArgs (func : ToolFunction) (input : List (String × Value))
    (parameters : ToolParamSchema) : Except String ToolStream := do
  let args ← positionalArgs (parameters.properties.map Prod.fst) input parameters.required
  Except.ok (func args)

/-- A stream holding a single terminal error response
(`createErrorGenerator`). -/
def errorStream (e : String) : ToolStream :=
  { chunks := [createErrorResponse e] }

/-- Embeds `Toolkit.callToolFunction`: resolve the action within the equipped
subset, validate the arguments and execute; every resolution, validation or
execution error is converted into a single terminal error response and
never re-thrown. -/
def Toolkit.callToolFunction (tk : Toolkit) (toolCall : ToolUseBlock) : ToolStream :=
  if !(tk.equippedTools.contains toolCall.name) then
    errorStream ("工具 " ++ toolCall.name ++ " 未装备或不存在")
  else
    match alistLookup tk.tools toolCall.name with
    | none => errorStream ("工具 " ++ toolCall.name ++ " 未找到")
    | some tool =>
      match validateInput toolCall.input tool.parameters with
      | .error e => errorStream ("工具函数执行失败: " ++ errToString e)
      | .ok validatedInput =>
        match callToolFunctionWithArgs tool.func validatedInput tool.parameters with
        | .error e => errorStream ("工具函数执行失败: " ++ errToString e)
        | .ok stream => stream

/-- Whether an `Except` is a success. -/
def exceptIsOk {ε α : Type} : Except ε α → Bool
  | .ok _ => true
  | .error _ => false

/-! ## Hook registry and dispatch (AgentBase / ReActAgentBase) -/

/-- A named hook entry; `F` is the shape of the hook function. -/
structure NamedHook (F : Type) where
  name : String
  fn : F

/-- Hook registration (JS object / `Map` assignment): an existing name
keeps its position and gets the new function; a new name is appended. -/
def registerHook {F : Type} (tbl : List (NamedHook F)) (e : NamedHook F) :
    List (NamedHook F) :=
  if tbl.any (fun h => h.name == e.name) then
    tbl.map (fun h => if h.name == e.name then { h with fn := e.fn } else h)
  else tbl ++ [e]

/-- The scope a hook is registered at. -/
inductive HookScope where
  | typeScope
  | instScope

/-- Replay an interleaved registration sequence into the type-scope and
instance-scope tables. -/
def buildHookTables {F : Type} (regs : List (HookScope × NamedHook F)) :
    List (NamedHook F) × List (NamedHook F) :=
  regs.foldl
    (fun acc r =>
      match r.1 with
      | .typeScope => (registerHook acc.1 r.2, acc.2)
      | .instScope => (acc.1, registerHook acc.2 r.2))
    ([], [])

/-- A pre-hook: it may return a full replacement of the argument bag; a
falsy return — or a thrown error, which is caught and logged — keeps the
current bag. -/
def PreHook (α : Type) : Type := α → Option α

/-- Run a pre-hook chain, recording for each hook the argument bag it
received. -/
def runPreChain {α : Type} (hooks : List (NamedHook (PreHook α))) (a : α) :
    α × List (String × α) :=
  match hooks with
  | [] => (a, [])
  | h :: rest =>
    let next :=
      match h.fn a with
      | some r => r
      | none => a
    let tail := runPreChain rest next
    (tail.1, (h.name, a) :: tail.2)

/-- Embeds `applyPreHooks` / `applyPreReasoningHooks`: walk the type-scope chain
on the current bag, then the instance-scope chain on its result. -/
def applyPreHooks {α : Type} (classHooks instanceHooks : List (NamedHook (PreHook α)))
    (a : α) : α × List (String × α) :=
  let cRun := runPreChain classHooks a
  let iRun := runPreChain instanceHooks cRun.1
  (iRun.1, cRun.2 ++ iRun.2)

/-- A post-hook: it sees the (fixed) argument bag and the current result
and may return a replacement result; a null return — or a thrown error —
keeps the current result. -/
def PostHook (α β : Type) : Type := α → β → Option β

/-- Run a post-hook chain over the result, recording the result each hook
received. -/
def runPostChain {α β : Type} (hooks : List (NamedHook (PostHook α β))) (args : α)
    (out : β) : β × List (String × β) :=
  match hooks with
  | [] => (out, [])
  | h :: rest =>
    let next :=
      match h.fn args out with
      | some r => r
      | none => out
    let tail := runPostChain rest args next
    (tail.1, (h.name, out) :: tail.2)

/-- Embeds `applyPostHooks`: the same two-tier ordering over the result. -/
def applyPostHooks {α β : Type} (classHooks instanceHooks : List (NamedHook (PostHook α β)))
    (args : α) (out : β) : β × List (String × β) :=
  let cRun := runPostChain classHooks args out
  let iRun := runPostChain instanceHooks args cRun.1
  (iRun.1, cRun.2 ++ iRun.2)

/-! ## The bounded reply loop (ReActAgent.reply / summarizing) -/

/-- The collaborators of one `reply` call, abstracted per iteration: the
aggregated reasoning output of the model, the uuid drawn for a synthesized
completion call, the outcome of `actingWithHooks` on each requested action,
whether parallel tool calls are enabled, and the summarizing model
output. -/
structure ReplyEnv where
  modelOut : Nat → List ContentBlock
  uuidAt : Nat → String
  act : Nat → ToolUseBlock → Option Message
  parallel : Bool
  summary : Message

/-- Observable events of one `reply` call. -/
inductive ReplyEv where
  | reasonEv : Nat → ReplyEv
  | actEv : Nat → ToolUseBlock → ReplyEv
  | summarizeEv : ReplyEv

/-- The scan adopting the first non-null acting response. -/
def firstSome {α : Type} : List (Option α) → Option α
  | [] => none
  | some a :: _ => some a
  | none :: rest => firstSome rest

/-- Dispatch of the actions requested in one iteration: under parallel execution
the invocations are all started and jointly awaited (`Promise.all`, which
keeps request order); otherwise they are awaited strictly in order. -/
def runActing (parallel : Bool) (act : ToolUseBlock → Option Message)
    (toolCalls : List ToolUseBlock) : List (Option Message) :=
  if parallel then toolCalls.map act
  else toolCalls.foldl (fun acc tc => acc ++ [act tc]) []

/-- Content of the reasoning message at iteration `i`: the model output with
the completion-call synthesis applied. -/
def reasoningContentAt (env : ReplyEnv) (i : Nat) : List ContentBlock :=
  synthesizeCompletion (env.modelOut i) (env.uuidAt i)

/-- The reason/act loop of `reply`, from iteration `i` with `r` iterations
left: reason, extract the requested actions (breaking were there none),
dispatch them, and adopt the first non-null response as the final reply. -/
def replyLoop (env : ReplyEnv) : Nat → Nat → Option Message × List ReplyEv
  | _, 0 => (none, [])
  | i, r + 1 =>
    let toolCalls := getToolUses (reasoningContentAt env i)
    if toolCalls.isEmpty then (none, [ReplyEv.reasonEv i])
    else
      let actingResponses := runActing env.parallel (env.act i) toolCalls
      let evs := ReplyEv.reasonEv i :: toolCalls.map (ReplyEv.actEv i)
      match firstSome actingResponses with
      | some m => (some m, evs)
      | none =>
        let rest := replyLoop env (i + 1) r
        (rest.1, evs ++ rest.2)

/-- Embeds `ReActAgent.reply`: run up to `maxIters` iterations; when no iteration
adopted a final reply, perform the single summarizing call and adopt its
output. -/
def reply (env : ReplyEnv) (maxIters : Nat) : Message × List ReplyEv :=
  match replyLoop env 0 maxIters with
  | (some m, evs) => (m, evs)
  | (none, evs) => (env.summary, evs ++ [ReplyEv.summarizeEv])

/-- The fixed summarize-now hint of `summarizing`. -/
def summarizeHintText : String :=
  "您未能在最大迭代次数内生成回复。现在请直接回复，总结当前情况。"

/-- The message list handed to the model by `summarizing`: the system
prompt, the conversation log, and the fixed hint appended last. -/
def summarizingMessages (sysPrompt : String) (memory : List Message) : List Message :=
  mkSystemMessage sysPrompt :: memory ++ [mkUserMessage summarizeHintText "user"]

/-- The iteration bound computed by the constructor:
`config.max_iters || 10` (zero and undefined are falsy). -/
def maxItersOf (configMaxIters : Option Nat) : Nat :=
  match configMaxIters with
  | some k => if k == 0 then 10 else k
  | none => 10

/-- Event predicates and counting. -/
def isReasonEv : ReplyEv → Bool
  | .reasonEv _ => true
  | _ => false

/-- Whether an event is the summarizing call. -/
def isSummarizeEv : ReplyEv → Bool
  | .summarizeEv => true
  | _ => false

/-- Whether an event is an action dispatch. -/
def isActEv : ReplyEv → Bool
  | .actEv _ _ => true
  | _ => false

/-- Count the events satisfying a predicate. -/
def countEv (p : ReplyEv → Bool) (evs : List ReplyEv) : Nat :=
  (evs.filter p).length

/-- Count the log appends in an acting trace. -/
def countMemAdd (tr : List ActEv) : Nat :=
  (tr.filter (fun e =>
    match e with
    | .memAdd _ => true
    | _ => false)).length

/-! ## Concrete instances used by witnesses and counterexamples -/

/-- A summarizing output used in concrete runs. -/
def demoSummary : Message :=
  { name := "agent", content := .plain "总结", role := .assistant }

/-- An environment whose model never requests a tool and whose acting never
succeeds. -/
def demoEnv : ReplyEnv :=
  { modelOut := fun _ => [ContentBlock.text "思考"]
    uuidAt := fun _ => "u0"
    act := fun _ _ => none
    parallel := false
    summary := demoSummary }

/-- A reply message adopted in the first-success scenario. -/
def demoMsgB : Message :=
  { name := "agent", content := .plain "B", role := .assistant }

/-- A later reply message that must be discarded. -/
def demoMsgC : Message :=
  { name := "agent", content := .plain "C", role := .assistant }

/-- A completion request with the given id. -/
def demoTc (i : String) : ToolUseBlock :=
  { id := i, name := "generate_response", input := [] }

/-- An acting function succeeding at the requests with ids 2 and 3. -/
def demoActSelect : ToolUseBlock → Option Message :=
  fun tc =>
    if tc.id == "2" then some demoMsgB
    else if tc.id == "3" then some demoMsgC
    else none

/-- A structured-output contract requiring a string `title` field. -/
def demoContract : StructuredModel :=
  { parse := fun v =>
      match v with
      | .obj fields =>
        match alistLookup fields "title" with
        | some (Value.str s) => Except.ok [("title", Value.str s)]
        | some _ => Except.error "title must be a string"
        | none => Except.error "missing title"
      | _ => Except.error "not an object" }

/-- Arguments carrying a numeric `title`, violating the contract. -/
def demoKwargs : List Value :=
  [Value.obj [("response", Value.str "..."), ("title", Value.int 5)]]

/-- An environment whose every acting step is the completion action failing
structured validation. -/
def demoEnvC5 : ReplyEnv :=
  { modelOut := fun _ => []
    uuidAt := fun _ => "u0"
    act := fun _ tc =>
      (acting finishFunctionName tc
        (generateResponse "agent" (some demoContract) "..." demoKwargs)).responseMsg
    parallel := false
    summary := demoSummary }

/-- A one-chunk successful stream. -/
def demoToolStream : ToolStream := { chunks := [createSuccessResponse "3"] }

/-- A two-parameter tool implementation. -/
def demoAddFunc : ToolFunction := fun _ => demoToolStream

/-- A schema requiring parameters `a` and `b`. -/
def demoAddSchema : ToolParamSchema :=
  { properties := [("a", Value.str "number"), ("b", Value.str "number")]
    required := ["a", "b"] }

/-- A toolkit with the tool `add` registered and equipped. -/
def demoToolkit : Toolkit :=
  Toolkit.registerToolWithMetadata {} demoAddFunc "add" "加法" demoAddSchema

/-- The registry entry stored for `add`. -/
def demoAddMeta : ToolFunctionMetadata :=
  { name := "add", func := demoAddFunc, description := "加法", parameters := demoAddSchema }

/-- A request for `add` omitting the required parameter `b`. -/
def demoBadCall : ToolUseBlock :=
  { id := "c1", name := "add", input := [("a", Value.int 1)] }

/-- An incremental chunk with payload a. -/
def demoChunkA : ToolResponse :=
  mkTextResponse "a" { success := some true, response_msg := none, err := none } false

/-- An incremental chunk with payload b. -/
def demoChunkB : ToolResponse :=
  mkTextResponse "b" { success := some true, response_msg := none, err := none } true

/-- A two-chunk stream whose payloads are not cumulative. -/
def demoStream2 : ToolStream := { chunks := [demoChunkA, demoChunkB] }

/-- A request for an ordinary (non-completion) tool. -/
def demoCallEcho : ToolUseBlock := { id := "c2", name := "echo", input := [] }

/-! ## Helper lemmas -/

/-- A block of type tool_use is convertible to a tool-use request. -/
lemma asToolUse_isSome_of_btype (b : ContentBlock)
    (h : (b.btype == "tool_use") = true) : (asToolUse b).isSome = true := by
  cases b <;> simp_all [ContentBlock.btype, asToolUse]

/-- Content holding a tool_use block yields a non-empty request list. -/
lemma getToolUses_ne_nil_of_has (bs : List ContentBlock)
    (h : hasToolUseBlocks bs = true) : getToolUses bs ≠ [] := by
  unfold hasToolUseBlocks at h
  unfold getToolUses
  cases hfl : getContentBlocksOfType bs "tool_use" with
  | nil => rw [hfl] at h; simp at h
  | cons x xs =>
    have hx : (x.btype == "tool_use") = true := by
      have hmem : x ∈ getContentBlocksOfType bs "tool_use" := by
        rw [hfl]; exact List.mem_cons_self _ _
      exact (List.mem_filter.mp hmem).2
    have hax := asToolUse_isSome_of_btype x hx
    cases hax2 : asToolUse x with
    | none => rw [hax2] at hax; simp at hax
    | some tu => simp [List.filterMap_cons, hax2]

/-- The synthesized reasoning content always holds a tool-use request. -/
lemma getToolUses_synthesize_ne_nil (bs : List ContentBlock) (u : String) :
    getToolUses (synthesizeCompletion bs u) ≠ [] := by
  unfold synthesizeCompletion
  by_cases h : hasToolUseBlocks bs = true
  · simp only [h, if_true]
    exact getToolUses_ne_nil_of_has bs h
  · simp only [h, if_false, Bool.false_eq_true]
    simp [getToolUses, getContentBlocksOfType, ContentBlock.btype, asToolUse]

/-- Sequential dispatch accumulates the results in request order. -/
lemma foldl_push_eq_map (act : ToolUseBlock → Option Message) :
    ∀ (tcs : List ToolUseBlock) (acc : List (Option Message)),
      tcs.foldl (fun acc2 tc => acc2 ++ [act tc]) acc = acc ++ tcs.map act := by
  intro tcs
  induction tcs with
  | nil => intro acc; simp
  | cons t ts ih => intro acc; simp [List.foldl_cons, ih]

/-- Parallel and sequential dispatch both produce the request-ordered
result list. -/
lemma runActing_eq_map (parallel : Bool) (act : ToolUseBlock → Option Message)
    (tcs : List ToolUseBlock) : runActing parallel act tcs = tcs.map act := by
  cases parallel <;> simp [runActing, foldl_push_eq_map]

/-- Scanning past an all-null segment. -/
lemma firstSome_append_none {γ : Type} (l1 l2 : List (Option γ))
    (h : ∀ x ∈ l1, x = none) : firstSome (l1 ++ l2) = firstSome l2 := by
  induction l1 with
  | nil => rfl
  | cons x xs ih =>
    have hx : x = none := h x (List.mem_cons_self _ _)
    subst hx
    show firstSome (none :: (xs ++ l2)) = firstSome l2
    rw [show firstSome (none :: (xs ++ l2)) = firstSome (xs ++ l2) from rfl]
    exact ih (fun y hy => h y (List.mem_cons_of_mem _ hy))

/-- Scanning an all-null list adopts nothing. -/
lemma firstSome_all_none {γ : Type} (l : List (Option γ))
    (h : ∀ x ∈ l, x = none) : firstSome l = none := by
  have h2 := firstSome_append_none l [] h
  simpa using h2

/-- Event counting distributes over concatenation. -/
lemma countEv_append (p : ReplyEv → Bool) (l1 l2 : List ReplyEv) :
    countEv p (l1 ++ l2) = countEv p l1 + countEv p l2 := by
  simp [countEv, List.filter_append]

/-- Event counting unfolds over a head element. -/
lemma countEv_cons (p : ReplyEv → Bool) (a : ReplyEv) (l : List ReplyEv) :
    countEv p (a :: l) = (if p a = true then 1 else 0) + countEv p l := by
  by_cases hp : p a = true
  · simp [countEv, List.filter_cons, hp, Nat.add_comm]
  · simp [countEv, List.filter_cons, hp]

/-- Action events are not reasoning events. -/
lemma countEv_reason_actEvs (i : Nat) (tcs : List ToolUseBlock) :
    countEv isReasonEv (tcs.map (ReplyEv.actEv i)) = 0 := by
  simp [countEv, isReasonEv]

/-- Action events are not summarizing events. -/
lemma countEv_summarize_actEvs (i : Nat) (tcs : List ToolUseBlock) :
    countEv isSummarizeEv (tcs.map (ReplyEv.actEv i)) = 0 := by
  simp [countEv, isSummarizeEv]

/-- When acting never adopts a reply, the loop runs through all its
iterations: no reply, one reasoning event per granted iteration, and no
summarize event inside the loop. -/
lemma replyLoop_all_none (env : ReplyEnv) (h : ∀ i tc, env.act i tc = none) :
    ∀ (r i : Nat),
      (replyLoop env i r).1 = none ∧
      countEv isReasonEv (replyLoop env i r).2 = r ∧
      countEv isSummarizeEv (replyLoop env i r).2 = 0 := by
  intro r
  induction r with
  | zero => intro i; exact ⟨rfl, rfl, rfl⟩
  | succ n ih =>
    intro i
    have hne := getToolUses_synthesize_ne_nil (env.modelOut i) (env.uuidAt i)
    have hempty : (getToolUses (reasoningContentAt env i)).isEmpty = false := by
      unfold reasoningContentAt
      cases hc : getToolUses (synthesizeCompletion (env.modelOut i) (env.uuidAt i)) with
      | nil => exact absurd hc hne
      | cons a l => rfl
    have hfs : firstSome
        (runActing env.parallel (env.act i) (getToolUses (reasoningContentAt env i))) =
        none := by
      rw [runActing_eq_map]
      refine firstSome_all_none _ ?_
      intro x hx
      obtain ⟨tc, _, rfl⟩ := List.mem_map.mp hx
      exact h i tc
    obtain ⟨ih1, ih2, ih3⟩ := ih (i + 1)
    rw [replyLoop]
    simp only [hempty, Bool.false_eq_true, if_false, hfs]
    refine ⟨ih1, ?_, ?_⟩
    · rw [List.cons_append, countEv_cons, countEv_append,
        countEv_reason_actEvs, ih2]
      simp [isReasonEv]
      omega
    · rw [List.cons_append, countEv_cons, countEv_append,
        countEv_summarize_actEvs, ih3]
      simp [isSummarizeEv]

/-- Running a pre-hook chain over a concatenation threads the first
segment into the second. -/
lemma runPreChain_append {α : Type} (l1 l2 : List (NamedHook (PreHook α))) (a : α) :
    runPreChain (l1 ++ l2) a =
      ((runPreChain l2 (runPreChain l1 a).1).1,
        (runPreChain l1 a).2 ++ (runPreChain l2 (runPreChain l1 a).1).2) := by
  induction l1 generalizing a with
  | nil => simp [runPreChain]
  | cons hk rest ih => simp [runPreChain, ih]

/-- The pre-hook trace names the chain entries in order. -/
lemma runPreChain_names {α : Type} (l : List (NamedHook (PreHook α))) (a : α) :
    ((runPreChain l a).2).map Prod.fst = l.map NamedHook.name := by
  induction l generalizing a with
  | nil => rfl
  | cons hk rest ih => simp [runPreChain, ih]

/-- Running a post-hook chain over a concatenation threads the first
segment into the second. -/
lemma runPostChain_append {α β : Type} (l1 l2 : List (NamedHook (PostHook α β)))
    (args : α) (out : β) :
    runPostChain (l1 ++ l2) args out =
      ((runPostChain l2 args (runPostChain l1 args out).1).1,
        (runPostChain l1 args out).2 ++
          (runPostChain l2 args (runPostChain l1 args out).1).2) := by
  induction l1 generalizing out with
  | nil => simp [runPostChain]
  | cons hk rest ih => simp [runPostChain, ih]

/-- The post-hook trace names the chain entries in order. -/
lemma runPostChain_names {α β : Type} (l : List (NamedHook (PostHook α β)))
    (args : α) (out : β) :
    ((runPostChain l args out).2).map Prod.fst = l.map NamedHook.name := by
  induction l generalizing out with
  | nil => rfl
  | cons hk rest ih => simp [runPostChain, ih]

/-- When no chunk is a successful completion-action signal, the acting fold
never adopts a reply. -/
lemma actingFold_resp_of_no_success (fin : String) (tc : ToolUseBlock) :
    ∀ (chunks : List ToolResponse) (acc : Value × Option Message),
      (∀ ch ∈ chunks, (tc.name == fin && ch.metadata.success == some true) = false) →
      (chunks.foldl (actingStep fin tc) acc).2 = acc.2 := by
  intro chunks
  induction chunks with
  | nil => intro acc _; rfl
  | cons ch rest ih =>
    intro acc h
    have hch := h ch (List.mem_cons_self _ _)
    rw [List.foldl_cons, ih (actingStep fin tc acc ch)
      (fun x hx => h x (List.mem_cons_of_mem _ hx))]
    simp [actingStep, hch]

/-- The acting fold keeps only the output of the last chunk. -/
lemma actingFold_out_last (fin : String) (tc : ToolUseBlock) :
    ∀ (chunks : List ToolResponse) (acc : Value × Option Message),
      (chunks.foldl (actingStep fin tc) acc).1 =
        (match chunks.getLast? with
         | some ch => Value.str (chunkText ch.content)
         | none => acc.1) := by
  intro chunks
  induction chunks with
  | nil => intro acc; rfl
  | cons ch rest ih =>
    intro acc
    cases rest with
    | nil =>
      simp [List.foldl_cons, actingStep]
    | cons c2 cs =>
      rw [List.foldl_cons, ih (actingStep fin tc acc ch), List.getLast?_cons_cons]
      cases hl : (c2 :: cs).getLast? with
      | none => exact absurd (List.getLast?_eq_none_iff.mp hl) (by simp)
      | some c => rfl

/-- An acting trace holds exactly one log-append event. -/
lemma countMemAdd_chunks_concat (chunks : List ToolResponse) (m : Message) :
    countMemAdd (chunks.map ActEv.chunkEv ++ [ActEv.memAdd m]) = 1 := by
  simp [countMemAdd]

/-- The key of a replaced entry is unchanged. -/
lemma key_of_replace {α : Type} (k : String) (v : α) (p : String × α) :
    ((if p.1 == k then (k, v) else p).1) = p.1 := by
  by_cases hp : (p.1 == k) = true
  · rw [if_pos hp]
    exact (eq_of_beq hp).symm
  · rw [if_neg (by simp [hp])]

/-- A lookup succeeds exactly when some entry bears the key. -/
lemma alistLookup_isSome_iff {α : Type} (m : List (String × α)) (n : String) :
    (alistLookup m n).isSome = true ↔ ∃ p ∈ m, (p.1 == n) = true := by
  unfold alistLookup
  rw [Option.isSome_map']
  exact List.find?_isSome

/-- Insertion preserves a successful lookup. -/
lemma alistLookup_isSome_insert {α : Type} (m : List (String × α)) (k n : String)
    (v : α) (h : (alistLookup m n).isSome = true) :
    (alistLookup (alistInsert m k v) n).isSome = true := by
  rw [alistLookup_isSome_iff] at h ⊢
  obtain ⟨p, hp, hpn⟩ := h
  unfold alistInsert
  by_cases hany : (m.any (fun q => q.1 == k)) = true
  · rw [if_pos hany]
    refine ⟨(if p.1 == k then (k, v) else p), List.mem_map_of_mem _ hp, ?_⟩
    rw [key_of_replace]
    exact hpn
  · rw [if_neg hany]
    exact ⟨p, List.mem_append_left _ hp, hpn⟩

/-- Looking up the inserted key succeeds. -/
lemma alistLookup_insert_self_isSome {α : Type} (m : List (String × α)) (k : String)
    (v : α) : (alistLookup (alistInsert m k v) k).isSome = true := by
  rw [alistLookup_isSome_iff]
  unfold alistInsert
  by_cases hany : (m.any (fun q => q.1 == k)) = true
  · rw [if_pos hany]
    obtain ⟨p, hp, hpk⟩ := List.any_eq_true.mp hany
    refine ⟨(if p.1 == k then (k, v) else p), List.mem_map_of_mem _ hp, ?_⟩
    rw [key_of_replace]
    exact hpk
  · rw [if_neg hany]
    exact ⟨(k, v), List.mem_append_right _ (List.mem_singleton.mpr rfl),
      beq_self_eq_true k⟩

/-- Erasing a different key preserves a successful lookup. -/
lemma alistLookup_isSome_erase {α : Type} (m : List (String × α)) (k n : String)
    (hne : (n == k) = false) (h : (alistLookup m n).isSome = true) :
    (alistLookup (alistErase m k) n).isSome = true := by
  rw [alistLookup_isSome_iff] at h ⊢
  obtain ⟨p, hp, hpn⟩ := h
  refine ⟨p, ?_, hpn⟩
  unfold alistErase
  rw [List.mem_filter]
  refine ⟨hp, ?_⟩
  have hn : p.1 = n := eq_of_beq hpn
  rw [hn, hne]
  rfl

/-- Any entry satisfying the key predicate makes the lookup succeed. -/
lemma alistLookup_isSome_of_any {α : Type} (m : List (String × α)) (n : String)
    (h : m.any (fun p => p.1 == n) = true) : (alistLookup m n).isSome = true := by
  rw [alistLookup_isSome_iff]
  exact List.any_eq_true.mp h

/-- Membership after a set insertion. -/
lemma mem_setAdd (s : List String) (k n : String) (h : n ∈ setAdd s k) :
    n ∈ s ∨ n = k := by
  unfold setAdd at h
  by_cases hc : s.contains k = true
  · rw [if_pos hc] at h
    exact Or.inl h
  · rw [if_neg hc] at h
    rcases List.mem_append.mp h with h1 | h2
    · exact Or.inl h1
    · exact Or.inr (List.mem_singleton.mp h2)

/-- Membership after folding set insertions. -/
lemma mem_foldl_setAdd :
    ∀ (names acc : List String) (n : String),
      n ∈ names.foldl setAdd acc → n ∈ acc ∨ n ∈ names := by
  intro names
  induction names with
  | nil => intro acc n h; exact Or.inl h
  | cons x xs ih =>
    intro acc n h
    rcases ih (setAdd acc x) n h with h1 | h2
    · rcases mem_setAdd acc x n h1 with ha | hb
      · exact Or.inl ha
      · exact Or.inr (by rw [hb]; exact List.mem_cons_self _ _)
    · exact Or.inr (List.mem_cons_of_mem _ h2)

/-- Filtering out the satisfying elements is empty exactly when all
satisfy. -/
lemma filter_not_isEmpty_eq_all (p : String → Bool) (l : List String) :
    (l.filter (fun x => !(p x))).isEmpty = l.all p := by
  induction l with
  | nil => rfl
  | cons x xs ih =>
    by_cases hx : p x = true
    · simp [List.filter_cons, List.all_cons, hx, ih]
    · simp [List.filter_cons, List.all_cons, hx]

/-! ## Claim theorems -/

/-- C1: with iteration bound K and acting outcomes that never adopt a
final reply (no successful completion-action result ever), `reply`
performs exactly K reasoning/acting iterations, then exactly one
summarizing call — which is the last event, so no further action is
dispatched — and returns the summarizing output; the summarizing call
carries the fixed summarize-now hint as its final message. -/
theorem reply_exhausts_bound_then_summarizes (env : ReplyEnv) (K : Nat)
    (sysPrompt : String) (memory : List Message)
    (h : ∀ i tc, env.act i tc = none) :
    (reply env K).1 = env.summary ∧
    countEv isReasonEv (reply env K).2 = K ∧
    countEv isSummarizeEv (reply env K).2 = 1 ∧
    (reply env K).2.getLast? = some ReplyEv.summarizeEv ∧
    (summarizingMessages sysPrompt memory).getLast? =
      some (mkUserMessage summarizeHintText "user") := by
  obtain ⟨h1, h2, h3⟩ := replyLoop_all_none env h K 0
  have hr : reply env K = (env.summary, (replyLoop env 0 K).2 ++ [ReplyEv.summarizeEv]) := by
    unfold reply
    cases hc : replyLoop env 0 K with
    | mk fst snd =>
      rw [hc] at h1
      simp only at h1
      subst h1
      rfl
  refine ⟨by rw [hr], ?_, ?_, ?_, ?_⟩
  · rw [hr]
    simp only [countEv_append, h2]
    simp [countEv, isReasonEv]
  · rw [hr]
    simp only [countEv_append, h3]
    simp [countEv, isSummarizeEv]
  · rw [hr]
    exact List.getLast?_concat _
  · unfold summarizingMessages
    exact List.getLast?_concat (mkSystemMessage sysPrompt :: memory)

/-- C1 witness: a bound-2 run of the concrete never-succeeding
environment. -/
theorem reply_exhausts_bound_then_summarizes_witness :
    (reply demoEnv 2).1 = demoEnv.summary ∧
    countEv isReasonEv (reply demoEnv 2).2 = 2 ∧
    countEv isSummarizeEv (reply demoEnv 2).2 = 1 ∧
    (reply demoEnv 2).2.getLast? = some ReplyEv.summarizeEv ∧
    (summarizingMessages "sys" []).getLast? =
      some (mkUserMessage summarizeHintText "user") :=
  reply_exhausts_bound_then_summarizes demoEnv 2 "sys" [] (fun _ _ => rfl)

/-- C2: a reasoning output with zero tool_use blocks is replaced by exactly
one synthesized completion request targeting `generate_response`, whose
sole argument `response` is the text content of the model output. -/
theorem reasoning_synthesizes_single_completion (bs : List ContentBlock) (u : String)
    (h : (getContentBlocksOfType bs "tool_use").length = 0) :
    synthesizeCompletion bs u =
      [ContentBlock.toolUse u finishFunctionName
        [("response", Value.str (getTextContentBlocks bs))]] := by
  have hnil : getContentBlocksOfType bs "tool_use" = [] :=
    List.length_eq_zero.mp h
  unfold synthesizeCompletion hasToolUseBlocks
  rw [hnil]
  rfl

/-- C2 witness: a plain text answer becomes a single completion call. -/
theorem reasoning_synthesizes_single_completion_witness :
    (getContentBlocksOfType [ContentBlock.text "4"] "tool_use").length = 0 ∧
    synthesizeCompletion [ContentBlock.text "4"] "u1" =
      [ContentBlock.toolUse "u1" finishFunctionName
        [("response", Value.str (getTextContentBlocks [ContentBlock.text "4"]))]] :=
  ⟨rfl, reasoning_synthesizes_single_completion [ContentBlock.text "4"] "u1" rfl⟩

/-- C3: with N actions requested in one reasoning output, parallel dispatch
produces exactly N invocation results (the same results, in the same
request order, as sequential dispatch), and the adopted final reply is the
first one, in request order, that signaled success — any later success in
the same iteration is discarded. -/
theorem acting_invokes_each_and_adopts_first_success
    (act : ToolUseBlock → Option Message) (before after : List ToolUseBlock)
    (tcj : ToolUseBlock) (m : Message)
    (hbefore : ∀ tc ∈ before, act tc = none) (hsucc : act tcj = some m) :
    (runActing true act (before ++ tcj :: after)).length =
      (before ++ tcj :: after).length ∧
    runActing true act (before ++ tcj :: after) =
      runActing false act (before ++ tcj :: after) ∧
    firstSome (runActing true act (before ++ tcj :: after)) = some m := by
  refine ⟨?_, ?_, ?_⟩
  · rw [runActing_eq_map]
    exact List.length_map _ _
  · rw [runActing_eq_map, runActing_eq_map]
  · rw [runActing_eq_map]
    rw [List.map_append]
    rw [firstSome_append_none (before.map act) _ ?_]
    · rw [List.map_cons, hsucc]
      rfl
    · intro x hx
      obtain ⟨tc, htc, rfl⟩ := List.mem_map.mp hx
      exact hbefore tc htc

/-- C3 witness: three requests, successes at positions two and three; the
position-two reply is adopted and the later success is discarded. -/
theorem acting_invokes_each_and_adopts_first_success_witness :
    (runActing true demoActSelect ([demoTc "1"] ++ demoTc "2" :: [demoTc "3"])).length =
      ([demoTc "1"] ++ demoTc "2" :: [demoTc "3"]).length ∧
    runActing true demoActSelect ([demoTc "1"] ++ demoTc "2" :: [demoTc "3"]) =
      runActing false demoActSelect ([demoTc "1"] ++ demoTc "2" :: [demoTc "3"]) ∧
    firstSome (runActing true demoActSelect ([demoTc "1"] ++ demoTc "2" :: [demoTc "3"])) =
      some demoMsgB :=
  acting_invokes_each_and_adopts_first_success demoActSelect
    [demoTc "1"] [demoTc "3"] (demoTc "2") demoMsgB
    (by
      intro tc htc
      rw [List.mem_singleton.mp htc]
      rfl)
    rfl

/-- C4: evaluation of the reasoning-step stream aggregation at a two-step
producer obeying the accumulated-payload contract (each partial reports the
full payload so far, final payload `hello`).  The aggregation appends every
cumulative snapshot, so the streamed final content keeps both snapshots and
differs — also in its text — from the content a single complete emission
yields; streamed and non-streamed reasoning are not equivalent. -/
theorem stream_aggregation_diverges_from_complete :
    aggregateReasoningStream [[ContentBlock.text "he"], [ContentBlock.text "hello"]] =
      [ContentBlock.text "he", ContentBlock.text "hello"] ∧
    aggregateReasoningStream [[ContentBlock.text "he"], [ContentBlock.text "hello"]] ≠
      [ContentBlock.text "hello"] ∧
    getTextContentBlocks
        (aggregateReasoningStream [[ContentBlock.text "he"], [ContentBlock.text "hello"]]) ≠
      getTextContentBlocks [ContentBlock.text "hello"] := by
  refine ⟨rfl, ?_, ?_⟩
  · intro h
    rw [show aggregateReasoningStream [[ContentBlock.text "he"], [ContentBlock.text "hello"]] =
      [ContentBlock.text "he", ContentBlock.text "hello"] from rfl] at h
    have := congrArg List.length h
    simp at this
  · intro h
    rw [show getTextContentBlocks
        (aggregateReasoningStream [[ContentBlock.text "he"], [ContentBlock.text "hello"]]) =
        "he\nhello" from rfl,
      show getTextContentBlocks [ContentBlock.text "hello"] = "hello" from rfl] at h
    exact absurd h (by decide)

/-- C5: under a structured-output contract whose validation rejects the
supplied argument, the completion handler yields a single failed action
result (success false, no response message), the acting step adopts no
reply from it, and — when every acting outcome of the call is such a
failure — the loop does not terminate early: all K iterations run another
reasoning step and the call falls through to summarizing. -/
theorem structured_validation_failure_forces_next_iteration
    (agentName response e : String) (sm : StructuredModel) (kwargs : List Value)
    (tc : ToolUseBlock) (env : ReplyEnv) (K : Nat)
    (hparse : sm.parse (jsOrElse kwargs.head? (Value.obj [])) = Except.error e)
    (hact : ∀ i tc2, env.act i tc2 =
      (acting finishFunctionName tc2
        (generateResponse agentName (some sm) response kwargs)).responseMsg) :
    (generateResponse agentName (some sm) response kwargs).chunks =
      [mkTextResponse ("参数验证错误: " ++ errToString e)
        { success := some false, response_msg := none, err := none } true] ∧
    (acting finishFunctionName tc
      (generateResponse agentName (some sm) response kwargs)).responseMsg = none ∧
    (reply env K).1 = env.summary ∧
    countEv isReasonEv (reply env K).2 = K := by
  have hchunks : (generateResponse agentName (some sm) response kwargs).chunks =
      [mkTextResponse ("参数验证错误: " ++ errToString e)
        { success := some false, response_msg := none, err := none } true] := by
    unfold generateResponse
    simp only [hparse]
  have hnone : ∀ tc2 : ToolUseBlock,
      (acting finishFunctionName tc2
        (generateResponse agentName (some sm) response kwargs)).responseMsg = none := by
    intro tc2
    unfold acting
    simp only
    rw [actingFold_resp_of_no_success]
    intro ch hch
    rw [hchunks] at hch
    rw [List.mem_singleton.mp hch]
    simp [mkTextResponse]
  have hallnone : ∀ i tc2, env.act i tc2 = none := by
    intro i tc2
    rw [hact i tc2]
    exact hnone tc2
  obtain ⟨h1, h2, h3⟩ := replyLoop_all_none env hallnone K 0
  have hr : reply env K =
      (env.summary, (replyLoop env 0 K).2 ++ [ReplyEv.summarizeEv]) := by
    unfold reply
    cases hc : replyLoop env 0 K with
    | mk fst snd =>
      rw [hc] at h1
      simp only at h1
      subst h1
      rfl
  refine ⟨hchunks, hnone tc, by rw [hr], ?_⟩
  rw [hr]
  simp only [countEv_append, h2]
  simp [countEv, isReasonEv]

/-- C5 witness: the contract requiring a string title rejects a numeric
title; with every acting outcome being that failure a bound-3 call runs
all three reasoning iterations and summarizes. -/
theorem structured_validation_failure_forces_next_iteration_witness :
    (generateResponse "agent" (some demoContract) "..." demoKwargs).chunks =
      [mkTextResponse ("参数验证错误: " ++ errToString "title must be a string")
        { success := some false, response_msg := none, err := none } true] ∧
    (acting finishFunctionName (demoTc "1")
      (generateResponse "agent" (some demoContract) "..." demoKwargs)).responseMsg = none ∧
    (reply demoEnvC5 3).1 = demoEnvC5.summary ∧
    countEv isReasonEv (reply demoEnvC5 3).2 = 3 :=
  structured_validation_failure_forces_next_iteration "agent" "..."
    "title must be a string" demoContract demoKwargs (demoTc "1") demoEnvC5 3
    rfl (fun _ _ => rfl)

/-- C6: invoking an equipped tool whose schema requires a parameter the
request omits yields a single terminal result with a textual error payload
and success false; nothing is re-thrown to the controller (the stream
carries no thrown error), and the acting step adopts no reply from it, so
only this one action fails and the loop is unaffected. -/
theorem missing_required_argument_fails_single_action
    (tk : Toolkit) (tc : ToolUseBlock) (tool : ToolFunctionMetadata) (r fin : String)
    (hequip : tk.equippedTools.contains tc.name = true)
    (hfind : alistLookup tk.tools tc.name = some tool)
    (hreq : r ∈ tool.parameters.required)
    (hmiss : tc.input.any (fun p => p.1 == r) = false) :
    (tk.callToolFunction tc).chunks.length = 1 ∧
    ((tk.callToolFunction tc).chunks.head?).map (fun ch => ch.metadata.success) =
      some (some false) ∧
    ((tk.callToolFunction tc).chunks.head?).map (fun ch => ch.is_last) = some true ∧
    ((tk.callToolFunction tc).chunks.head?).map (fun ch => ch.metadata.err.isSome) =
      some true ∧
    (tk.callToolFunction tc).thrown = none ∧
    (acting fin tc (tk.callToolFunction tc)).responseMsg = none := by
  have hfound : (tool.parameters.required.find?
      (fun r2 => !(tc.input.any (fun p => p.1 == r2)))).isSome = true := by
    rw [List.find?_isSome]
    exact ⟨r, hreq, by rw [hmiss]; rfl⟩
  obtain ⟨r0, hr0⟩ := Option.isSome_iff_exists.mp hfound
  have hval : validateInput tc.input tool.parameters =
      Except.error ("缺少必需参数: " ++ r0) := by
    unfold validateInput
    rw [hr0]
  have hcall : tk.callToolFunction tc =
      errorStream ("工具函数执行失败: " ++ errToString ("缺少必需参数: " ++ r0)) := by
    unfold Toolkit.callToolFunction
    rw [hequip]
    simp only [Bool.not_true, Bool.false_eq_true, if_false, hfind, hval]
  refine ⟨?_, ?_, ?_, ?_, ?_, ?_⟩
  · rw [hcall]; rfl
  · rw [hcall]; rfl
  · rw [hcall]; rfl
  · rw [hcall]; rfl
  · rw [hcall]; rfl
  · rw [hcall]
    unfold acting
    simp only
    rw [actingFold_resp_of_no_success]
    intro ch hch
    rw [List.mem_singleton.mp hch]
    simp [createErrorResponse, mkTextResponse]

/-- C6 witness: calling `add` (requiring a and b) with only a supplied. -/
theorem missing_required_argument_fails_single_action_witness :
    (demoToolkit.callToolFunction demoBadCall).chunks.length = 1 ∧
    ((demoToolkit.callToolFunction demoBadCall).chunks.head?).map
      (fun ch => ch.metadata.success) = some (some false) ∧
    ((demoToolkit.callToolFunction demoBadCall).chunks.head?).map
      (fun ch => ch.is_last) = some true ∧
    ((demoToolkit.callToolFunction demoBadCall).chunks.head?).map
      (fun ch => ch.metadata.err.isSome) = some true ∧
    (demoToolkit.callToolFunction demoBadCall).thrown = none ∧
    (acting finishFunctionName demoBadCall
      (demoToolkit.callToolFunction demoBadCall)).responseMsg = none :=
  missing_required_argument_fails_single_action demoToolkit demoBadCall demoAddMeta
    "b" finishFunctionName rfl rfl (by simp [demoAddMeta, demoAddSchema]) rfl

/-- C7 counterexample: a tool emitting the non-cumulative payloads a then b
ends with a tool-result output equal to b alone — the text of the last
chunk — not the accumulation of all text payloads seen, refuting the claim
that the output accumulates every payload. -/
theorem acting_output_not_accumulated_counterexample :
    toolResultOutput (acting finishFunctionName demoCallEcho demoStream2).toolResultMsg =
      some (Value.str "b") ∧
    toolResultOutput (acting finishFunctionName demoCallEcho demoStream2).toolResultMsg ≠
      some (Value.str
        (String.intercalate "\n" (demoStream2.chunks.map (fun ch => chunkText ch.content)))) := by
  refine ⟨rfl, ?_⟩
  intro h
  rw [show toolResultOutput
      (acting finishFunctionName demoCallEcho demoStream2).toolResultMsg =
      some (Value.str "b") from rfl,
    show String.intercalate "\n" (demoStream2.chunks.map (fun ch => chunkText ch.content)) =
      "a\nb" from rfl] at h
  simp only [Option.some.injEq, Value.str.injEq] at h
  exact absurd h (by decide)

/-- C7 (amended): every incremental result observed is folded into the one
tool-result unit, which is appended to the log exactly once, after the
result sequence is fully drained — also on the error path — and its output
equals the textual payload of the last chunk observed (each chunk
overwrites the previous output; a thrown error overwrites it with the
failure text). -/
theorem acting_folds_once_with_last_chunk_output (fin : String) (tc : ToolUseBlock)
    (stream : ToolStream) :
    (acting fin tc stream).trace =
      stream.chunks.map ActEv.chunkEv ++
        [ActEv.memAdd (acting fin tc stream).toolResultMsg] ∧
    countMemAdd (acting fin tc stream).trace = 1 ∧
    (acting fin tc stream).trace.getLast? =
      some (ActEv.memAdd (acting fin tc stream).toolResultMsg) ∧
    toolResultOutput (acting fin tc stream).toolResultMsg =
      some (match stream.thrown with
        | some e => Value.str ("工具调用失败: " ++ errToString e)
        | none =>
          match stream.chunks.getLast? with
          | some ch => Value.str (chunkText ch.content)
          | none => Value.arr []) := by
  refine ⟨rfl, countMemAdd_chunks_concat _ _, List.getLast?_concat _, ?_⟩
  show toolResultOutput (mkToolResultMessage (ContentBlock.toolResult tc.id tc.name _)) = _
  rw [show ∀ v, toolResultOutput
      (mkToolResultMessage (ContentBlock.toolResult tc.id tc.name v)) = some v
    from fun v => rfl]
  cases stream.thrown with
  | some e => rfl
  | none =>
    simp only
    rw [actingFold_out_last]

/-- C8: for any interleaved registration sequence at a lifecycle point, the
pre and post dispatchers behave as the single chain running all type-scope
hooks before all instance-scope hooks — so the argument each hook receives
is the value its predecessor produced — and the execution trace lists every
type-scope hook before any instance-scope hook, each scope in registration
order, regardless of how registrations were interleaved. -/
theorem hook_dispatch_type_scope_before_instance {α β : Type}
    (regsPre : List (HookScope × NamedHook (PreHook α)))
    (regsPost : List (HookScope × NamedHook (PostHook α β)))
    (a args : α) (out : β) :
    applyPreHooks (buildHookTables regsPre).1 (buildHookTables regsPre).2 a =
      runPreChain ((buildHookTables regsPre).1 ++ (buildHookTables regsPre).2) a ∧
    ((applyPreHooks (buildHookTables regsPre).1 (buildHookTables regsPre).2 a).2).map
        Prod.fst =
      (buildHookTables regsPre).1.map NamedHook.name ++
        (buildHookTables regsPre).2.map NamedHook.name ∧
    applyPostHooks (buildHookTables regsPost).1 (buildHookTables regsPost).2 args out =
      runPostChain ((buildHookTables regsPost).1 ++ (buildHookTables regsPost).2)
        args out ∧
    ((applyPostHooks (buildHookTables regsPost).1 (buildHookTables regsPost).2
        args out).2).map Prod.fst =
      (buildHookTables regsPost).1.map NamedHook.name ++
        (buildHookTables regsPost).2.map NamedHook.name := by
  refine ⟨?_, ?_, ?_, ?_⟩
  · rw [runPreChain_append]
    rfl
  · unfold applyPreHooks
    simp only [List.map_append]
    rw [runPreChain_names, runPreChain_names]
  · rw [runPostChain_append]
    rfl
  · unfold applyPostHooks
    simp only [List.map_append]
    rw [runPostChain_names, runPostChain_names]

/-- C9: the equipped set always stays a subset of the registered map: both
registration operations preserve the invariant, resetting the equipped
tools never touches the registry, throws exactly when some given name is
unregistered — leaving the whole toolkit unchanged in that case — and
preserves the invariant, and removal and clearing preserve it as well. -/
theorem toolkit_equipped_subset_invariant
    (tk : Toolkit) (func : ToolFunction)
    (name description functionName rmName : String)
    (parameters : ToolParamSchema) (extracted : ToolFunctionMetadata)
    (toolNames : List String)
    (h : tk.equippedSubsetRegistered) :
    (tk.registerToolWithMetadata func name description parameters).equippedSubsetRegistered ∧
    (tk.registerToolFunction functionName extracted).equippedSubsetRegistered ∧
    ((tk.resetEquippedTools toolNames).1).tools = tk.tools ∧
    ((tk.resetEquippedTools toolNames).2).isSome =
      !(toolNames.all (fun n => tk.hasToolFunction n)) ∧
    ((tk.resetEquippedTools toolNames).2.isSome = true →
      (tk.resetEquippedTools toolNames).1 = tk) ∧
    ((tk.resetEquippedTools toolNames).1).equippedSubsetRegistered ∧
    ((tk.removeToolFunction rmName).1).equippedSubsetRegistered ∧
    tk.clearAll.equippedSubsetRegistered := by
  have hall : (toolNames.filter
      (fun n => !(tk.tools.any (fun p => p.1 == n)))).isEmpty =
      toolNames.all (fun n => tk.hasToolFunction n) :=
    filter_not_isEmpty_eq_all (fun n => tk.tools.any (fun p => p.1 == n)) toolNames
  refine ⟨?_, ?_, ?_, ?_, ?_, ?_, ?_, ?_⟩
  · intro n hn
    rcases mem_setAdd tk.equippedTools name n hn with h1 | h2
    · exact alistLookup_isSome_insert tk.tools name n _ (h n h1)
    · rw [h2]
      exact alistLookup_insert_self_isSome tk.tools name _
  · intro n hn
    rcases mem_setAdd tk.equippedTools functionName n hn with h1 | h2
    · exact alistLookup_isSome_insert tk.tools functionName n _ (h n h1)
    · rw [h2]
      exact alistLookup_insert_self_isSome tk.tools functionName _
  · simp only [Toolkit.resetEquippedTools]
    split <;> rfl
  · simp only [Toolkit.resetEquippedTools]
    by_cases hc : (toolNames.filter
        (fun n => !(tk.tools.any (fun p => p.1 == n)))).isEmpty = true
    · rw [if_pos hc]
      rw [hc] at hall
      rw [← hall]
      rfl
    · rw [if_neg hc]
      have hcf : (toolNames.filter
          (fun n => !(tk.tools.any (fun p => p.1 == n)))).isEmpty = false := by
        cases hx : (toolNames.filter
            (fun n => !(tk.tools.any (fun p => p.1 == n)))).isEmpty
        · rfl
        · exact absurd hx hc
      rw [hcf] at hall
      rw [← hall]
      rfl
  · simp only [Toolkit.resetEquippedTools]
    split
    · intro habs
      simp at habs
    · intro _
      rfl
  · simp only [Toolkit.resetEquippedTools]
    split
    · rename_i hc
      intro n hn
      rcases mem_foldl_setAdd toolNames [] n hn with h1 | h2
      · exact absurd h1 (List.not_mem_nil n)
      · rw [hc] at hall
        have hany := List.all_eq_true.mp hall.symm n h2
        exact alistLookup_isSome_of_any tk.tools n hany
    · exact h
  · simp only [Toolkit.removeToolFunction]
    split
    · intro n hn
      obtain ⟨hmem, hne⟩ := List.mem_filter.mp hn
      have hne2 : (n == rmName) = false := by
        cases hx : (n == rmName)
        · rfl
        · rw [hx] at hne
          simp at hne
      exact alistLookup_isSome_erase tk.tools rmName n hne2 (h n hmem)
    · exact h
  · intro n hn
    exact absurd hn (List.not_mem_nil n)

/-- C9 witness: the invariant checks on a toolkit with the tool add
registered and equipped. -/
theorem toolkit_equipped_subset_invariant_witness :
    (demoToolkit.registerToolWithMetadata demoAddFunc "mul" "乘法"
      demoAddSchema).equippedSubsetRegistered ∧
    (demoToolkit.registerToolFunction "mul2" demoAddMeta).equippedSubsetRegistered ∧
    ((demoToolkit.resetEquippedTools ["add"]).1).tools = demoToolkit.tools ∧
    ((demoToolkit.resetEquippedTools ["add"]).2).isSome =
      !(["add"].all (fun n => demoToolkit.hasToolFunction n)) ∧
    ((demoToolkit.resetEquippedTools ["add"]).2.isSome = true →
      (demoToolkit.resetEquippedTools ["add"]).1 = demoToolkit) ∧
    ((demoToolkit.resetEquippedTools ["add"]).1).equippedSubsetRegistered ∧
    ((demoToolkit.removeToolFunction "add").1).equippedSubsetRegistered ∧
    demoToolkit.clearAll.equippedSubsetRegistered :=
  toolkit_equipped_subset_invariant demoToolkit demoAddFunc "mul" "乘法" "mul2" "add"
    demoAddSchema demoAddMeta ["add"]
    (by
      intro n hn
      rw [List.mem_singleton.mp hn]
      rfl)

/-- C10: a constructor configuration with max_iters 0 (or absent — both
falsy) yields the default bound 10, and a reply call under that bound on a
never-succeeding environment performs all 10 reasoning iterations before
summarizing rather than skipping straight to the summary. -/
theorem falsy_max_iters_defaults_to_ten (env : ReplyEnv)
    (h : ∀ i tc, env.act i tc = none) :
    maxItersOf (some 0) = 10 ∧
    maxItersOf none = 10 ∧
    countEv isReasonEv (reply env (maxItersOf (some 0))).2 = 10 ∧
    (reply env (maxItersOf (some 0))).1 = env.summary := by
  obtain ⟨h1, h2, h3⟩ := replyLoop_all_none env h 10 0
  have hr : reply env 10 =
      (env.summary, (replyLoop env 0 10).2 ++ [ReplyEv.summarizeEv]) := by
    unfold reply
    cases hc : replyLoop env 0 10 with
    | mk fst snd =>
      rw [hc] at h1
      simp only at h1
      subst h1
      rfl
  refine ⟨rfl, rfl, ?_, ?_⟩
  · rw [show maxItersOf (some 0) = 10 from rfl, hr]
    simp only [countEv_append, h2]
    simp [countEv, isReasonEv]
  · rw [show maxItersOf (some 0) = 10 from rfl, hr]

/-- C10 witness: the concrete never-succeeding environment runs 10
reasoning iterations under the defaulted bound. -/
theorem falsy_max_iters_defaults_to_ten_witness :
    maxItersOf (some 0) = 10 ∧
    maxItersOf none = 10 ∧
    countEv isReasonEv (reply demoEnv (maxItersOf (some 0))).2 = 10 ∧
    (reply demoEnv (maxItersOf (some 0))).1 = demoEnv.summary :=
  falsy_max_iters_defaults_to_ten demoEnv (fun _ _ => rfl)

end ReactAgent
